import Mathlib

/-!
Verification of the email-triage toolkit (scripts/triage_emails.py,
scripts/sample_emails.py) against its specification.

The Python code is shallowly embedded: strings are Lean `String`s
(sequences of `Char`); Python string operations (`in`, `.lower()`,
`.split(sep)[i]`, slicing) are modelled by executable functions on
`List Char`; dictionaries holding email records are modelled by a
structure with optional fields; the triage run's filesystem effects are
modelled by explicit state passing over folder contents; fallible
indexing is modelled with `Option`.
-/

namespace Triage
/-- Python substring membership test `pat in s`, on character lists:
does `hay` start with `pat`? -/
def startsWithList : List Char → List Char → Bool
  | [], _ => true
  | _ :: _, [] => false
  | p :: ps, c :: cs => p == c && startsWithList ps cs

/-- Python `pat in hay` on character lists: `pat` occurs as a contiguous
substring of `hay`. -/
def containsSub (pat : List Char) : List Char → Bool
  | [] => pat.isEmpty
  | c :: cs => startsWithList pat (c :: cs) || containsSub pat cs

/-- Python `pat in hay` on strings. -/
def strIn (pat hay : String) : Bool :=
  containsSub pat.data hay.data

/-- Python `sep in s` for a single character `sep`, on character lists. -/
def hasChar (sep : Char) : List Char → Bool
  | [] => false
  | c :: cs => c == sep || hasChar sep cs

/-- Python `s.lower()` (the sender data is ASCII, where `Char.toLower`
agrees with Python's `str.lower`). -/
def lowerStr (s : String) : String :=
  String.mk (s.data.map Char.toLower)

/-- Python `s.split(sep)` for a one-character separator: the list of
(possibly empty) segments of `s` between occurrences of `sep`.  As in
Python, the result has one more element than there are occurrences of
`sep`, and is never empty. -/
def pySplit (sep : Char) : List Char → List (List Char)
  | [] => [[]]
  | c :: cs =>
    if c = sep then [] :: pySplit sep cs
    else
      match pySplit sep cs with
      | [] => [[c]]
      | p :: ps => (c :: p) :: ps

/-- Address-part derivation of `get_domain` in scripts/triage_emails.py:
when `"<" in from_addr`, Python rebinds
`from_addr = from_addr.split("<")[1].split(">")[0]`.  The `[1]` index is
modelled fallibly with `List.get?` (it would raise `IndexError` were the
list too short); `[0]` likewise with `head?`. -/
def pyAddr (a0 : List Char) : Option (List Char) :=
  if hasChar '<' a0 then
    match (pySplit '<' a0).get? 1 with
    | none => none
    | some seg => (pySplit '>' seg).head?
  else some a0

/-- Embedding of `get_domain` from scripts/triage_emails.py, with the
fallible indexing operations made explicit (`none` models a raised
`IndexError`):
if `"<" in from_addr`, rebind to `split("<")[1].split(">")[0]`;
if `"@" in from_addr`, return `split("@")[1].lower()`;
else return `from_addr.lower()[:50]`. -/
def get_domainO (from_addr : String) : Option String :=
  match pyAddr from_addr.data with
  | none => none
  | some a =>
    if hasChar '@' a then
      match (pySplit '@' a).get? 1 with
      | none => none
      | some d => some (String.mk (d.map Char.toLower))
    else some (String.mk ((a.map Char.toLower).take 50))

/-- Total wrapper for `get_domain`; `get_domainO` is proved to always
return `some` (the Python never actually raises), so the default is
never used. -/
def get_domain (from_addr : String) : String :=
  (get_domainO from_addr).getD ""

/-- Independent characterisation of the address part computed by
`get_domain`: when the text has a `<`, the characters after the first
`<` up to the next `<` or `>` (or the end); otherwise the whole text. -/
def addrOf (a0 : List Char) : List Char :=
  if hasChar '<' a0 then
    ((a0.dropWhile (fun c => !(c == '<'))).tail).takeWhile
      (fun c => !(c == '<') && !(c == '>'))
  else a0

/-- Email record: a parsed JSON object.  Only the fields the scripts
read are modelled; a `none` field models an absent key, read through
Python's `dict.get(key, default)`. -/
structure Email where
  fromField : Option String
  subject : Option String
deriving DecidableEq

/-- Python `email.get("from", default)`. -/
def getFrom (e : Email) (default : String) : String :=
  e.fromField.getD default

/-- The ARCHIVE_SENDERS constant of scripts/triage_emails.py (a Python
set literal; modelled as a list in source order -- only membership is
ever used). -/
def ARCHIVE_SENDERS : List String := [
  "honeybirdette.com", "e.inc.com", "service.tiktok.com", "a.grubhub.com",
  "ocasiocortez.com", "e4.rover.com", "petfood.express", "substack.com",
  "piratewires.com", "email.nanit.com", "news.thebump.com", "email.chipotle.com",
  "mail.toogoodtogo.com", "defaultkings.com", "thetiebar.com", "listi.jpberlin.de",
  "voice-noreply@google.com", "notifications@bugsnag.com", "squaremktg.com", "txt.voice.google.com",
  "noreply@bambulab.com", "gusto.com", "inform.bill.com", "no-reply@digikey.com",
  "notification.intuit.com", "NoReply.ODD@dhl.com", "no-reply-aws@amazon.com", "cloudplatform-noreply@google.com",
  "no-reply@accounts.google.com", "workspace-noreply@google.com", "no-reply@amazon.com", "no-reply@patreon.com",
  "no-reply@mailchimp.com", "donotreply@appfolio.com", "donotreply@onlineportal.appfolio.com", "members.mobilize.io",
  "catalystcampus.org", "info@prusa3d.com", "payments-noreply@google.com", "stellerarts.com",
  "drive-shares-dm-noreply@google.com", "simon-mail.groometransportation.com", "noreply@qemailserver.com", "notifications.intuit.com",
  "email.slackhq.com", "adeointeractive.com", "cps.iau.org", "email.claude.com",
  "info@printables.com", "qualtrics-research.com", "Publications.spie.org", "info@swfound.org",
  "no-reply@login.gov", "drangkromeet.com", "secondtimefounders.com", "trwih.com",
  "barbaraleeforcongress.org", "c.hellofresh.com", "email.ticketmaster.com", "roktpowered.com",
  "101domain.com", "simonsfoundation.org", "slack.zendesk.com", "contact.exploratorium.edu",
  "yimbyaction.org", "e.giffords.org", "e.votevets.org", "e.elissaslotkin.org",
  "e.chrispappas.org", "foe.org", "mail.hallow.com", "e.roadtrippers.com",
  "e.starbucks.com", "newsletter.trip.com", "23andme.com", "bookcrossing.com",
  "peakdesign.com", "bark.co", "emails.wyndhamhotels.com", "fluent.pet",
  "mailout.plex.tv", "ctoconnection.com", "chewy.com", "e.vacasa.com",
  "join.netflix.com", "e.worldnomads.com", "tonal.com", "mschf.com",
  "announcements.soundcloud.com", "updates.miro.com", "info.haymarketmedicalnetwork.com", "baukunst.co",
  "latecheckout.studio", "notifications.ro.co", "thelostchurch.org", "nanit.com",
  "namecheap.com", "autodeskcommunications.com", "sensibo.com", "e.electjon.com",
  "techcrunch.com", "audible.com", "vcita.com", "email.1password.com",
  "mail.coinbase.com", "twitch.tv", "slack.com", "mail.airtable.com",
  "mn.co", "thekla.com", "messaging.squareup.com", "butterand.com",
  "androidjones.com", "babalou.com", "craigslist.org", "reply.craigslist.org",
  "gregangelo.com", "texasexesemail.com", "proofre.com", "qrzcq.com",
  "barszranch.com", "e.smartnews.com", "theclymb.com", "is.email.nextdoor.com",
  "reply.chargepoint.com", "team.twilio.com", "e.debhaaland.com", "rackwarehouse.com",
  "paws.petmeds.com", "kochdavisjobs.com", "fightforthefuture.org", "youtube.com",
  "outreach.assembly.ca.gov", "catmachin.com", "info.blueshieldca.com", "mailgun.gingrapp.com",
  "connect.othership.us", "polytrope.com", "greathighwaypark.com", "linkedin.com",
  "redheron.com", "labcorpmessage.com", "email.modernanimal.com", "e.healio.com",
  "email.classmates.com", "false-profit.com", "heathceramics.com", "vowel.com",
  "email.venmo.com", "wakethetalkup.com", "engineeredartworks.com", "duolingo.com",
  "em.shutterfly.com", "vagaro.com", "retainhr.com", "marketing.coveredca.com",
  "e.simonmed.com", "g.hellofresh.com", "visaprepaidprocessing.com", "service.alibaba.com",
  "engage.microsoft.com", "notices.rei.com", "godaddy.com", "frankenforiowa.org",
  "flocksafety.com", "unity3d.com", "dnuke.com", "avimark1.com",
  "sagebionetworks.org", "spaero.bio", "mealtrain.com", "campaign.eventbrite.com",
  "g.kajabimail.net", "c.kajabimail.net", "mrktgllry.com", "globaldatamarketplace.com",
  "me.kickstarter.com", "joshshapiro.org", "mail.keeps.com", "mail.lakeshorelearning.com",
  "fogcitydogs.com", "e.fastcompany.com", "onemedical.com", "honeyhomes.com",
  "lookingup.art", "climatetechaction.network", "crunchlabs.com", "producthunt.com",
  "mail.adobe.com", "173366937.mailchimpapp.com", "kimblegroup.com", "hazardfactory.org",
  "ss.email.nextdoor.com", "sportsbasement.com", "onlinebookclub.org", "manifold.markets"]

/-- The REVIEW_SENDERS constant of scripts/triage_emails.py: empty in
the shipped configuration. -/
def REVIEW_SENDERS : List String := []

/-- Shared matching core of `should_archive` and `needs_review`:
`any(pattern in email.get("from", "").lower() for pattern in S)`. -/
def matchesAny (S : List String) (fromText : String) : Bool :=
  S.any (fun pat => strIn pat (lowerStr fromText))

/-- Embedding of `should_archive` from scripts/triage_emails.py. -/
def should_archive (e : Email) : Bool :=
  matchesAny ARCHIVE_SENDERS (getFrom e "")

/-- Embedding of `needs_review` from scripts/triage_emails.py. -/
def needs_review (e : Email) : Bool :=
  matchesAny REVIEW_SENDERS (getFrom e "")

/-- Outcome of classifying one record. -/
inductive Classification where
  | Archive
  | Review
  | Unresolved
deriving DecidableEq

/-- The classification decision of the main loop of
scripts/triage_emails.py, parameterised by the two matcher sets:
`needs_review` is tested first, then `should_archive`. -/
def classifyWith (R A : List String) (e : Email) : Classification :=
  if matchesAny R (getFrom e "") then Classification.Review
  else if matchesAny A (getFrom e "") then Classification.Archive
  else Classification.Unresolved

/-- The classification decision with the shipped matcher sets. -/
def classify (e : Email) : Classification :=
  classifyWith REVIEW_SENDERS ARCHIVE_SENDERS e

/-- One file of the inbox folder: its name and its content, where
`none` models content that `json.load` fails to parse. -/
structure RawFile where
  name : String
  content : Option Email
deriving DecidableEq

/-- The `stats` dictionary of the main loop of
scripts/triage_emails.py. -/
structure Stats where
  archive : Nat
  review : Nat
  unknown : Nat
deriving DecidableEq

/-- State threaded through the triage run: the records still in the
inbox folder, the records moved to each destination folder, the stats
counters, and the `sender_counts` default-dict (modelled as a total
count function over domain keys). -/
structure RunState where
  inbox : List RawFile
  toArchive : List RawFile
  needsReview : List RawFile
  stats : Stats
  senderCounts : String → Nat

/-- Initial state of a run: empty destinations, zero counters (the
inbox component collects the records that end the run still in the
source folder). -/
def initState : RunState :=
  { inbox := [], toArchive := [], needsReview := [],
    stats := { archive := 0, review := 0, unknown := 0 },
    senderCounts := fun _ => 0 }

/-- Embedding of one iteration of the main loop of
scripts/triage_emails.py: a file whose content fails to parse is
skipped (`except: continue`) and stays in the source folder; otherwise
the record is tested with `needs_review`, then `should_archive`, and
moved or left in place accordingly, updating `stats` and
`sender_counts`. -/
def processFile (st : RunState) (f : RawFile) : RunState :=
  match f.content with
  | none => { st with inbox := st.inbox ++ [f] }
  | some e =>
    if needs_review e then
      { st with needsReview := st.needsReview ++ [f],
                stats := { st.stats with review := st.stats.review + 1 } }
    else if should_archive e then
      { st with toArchive := st.toArchive ++ [f],
                stats := { st.stats with archive := st.stats.archive + 1 } }
    else
      { st with inbox := st.inbox ++ [f],
                stats := { st.stats with unknown := st.stats.unknown + 1 },
                senderCounts := fun d =>
                  if d = get_domain (getFrom e "unknown") then st.senderCounts d + 1
                  else st.senderCounts d }

/-- Embedding of the main loop of scripts/triage_emails.py over the
sorted file listing of the inbox folder. -/
def runTriage (files : List RawFile) : RunState :=
  files.foldl processFile initState

/-- Result of loading one file in scripts/sample_emails.py: a parsed
record, or the message of the exception raised. -/
inductive LoadResult where
  | ok : Email → LoadResult
  | err : String → LoadResult
deriving DecidableEq

/-- One file of the folder scanned by `sample_emails`. -/
structure SFile where
  name : String
  load : LoadResult
deriving DecidableEq

/-- Python truthiness of the optional `search` argument: `None` and the
empty string are falsy (`if search:` / `if not search:`). -/
def searchActive : Option String → Bool
  | none => false
  | some s => !(s == "")

/-- One entry of the `matches` list of `sample_emails`: file name,
sender, subject. -/
abbrev Entry := String × String × String

/-- Embedding of one iteration of the matching loop of
scripts/sample_emails.py: a record that loads is kept (filtered by the
case-insensitive search over sender and subject when a search is
active); a record that fails to load is kept as an
`(f, "error", message)` entry when no search is active and dropped
otherwise. -/
def matchEntry (search : Option String) (f : SFile) : Option Entry :=
  match f.load with
  | LoadResult.ok e =>
    let sender := e.fromField.getD "unknown"
    let subj := e.subject.getD "no subject"
    if searchActive search then
      let sl := lowerStr (search.getD "")
      if strIn sl (lowerStr sender) || strIn sl (lowerStr subj) then
        some (f.name, sender, subj)
      else none
    else some (f.name, sender, subj)
  | LoadResult.err msg =>
    if searchActive search then none
    else some (f.name, "error", msg)

/-- The `matches` list of scripts/sample_emails.py, built over the
sorted file listing. -/
def sampleMatches (files : List SFile) (search : Option String) : List Entry :=
  files.filterMap (matchEntry search)

/-- Python `matches[-count:]` for a non-negative `count`: with
`count = 0` the slice is `matches[0:]`, the whole list. -/
def pyTailSlice (l : List Entry) (count : Nat) : List Entry :=
  if count = 0 then l else l.drop (l.length - count)

/-- Embedding of the result selection of scripts/sample_emails.py:
`recent = matches[-count:] if len(matches) > count else matches`. -/
def sample_emails (files : List SFile) (count : Nat) (search : Option String) :
    List Entry :=
  let ms := sampleMatches files search
  if count < ms.length then pyTailSlice ms count else ms

/-- Property of a record that a triage run leaves in the source folder:
it is unparsable, or it matches neither matcher set. -/
def residual (f : RawFile) : Prop :=
  ∀ e, f.content = some e → (needs_review e = false ∧ should_archive e = false)

/-- Unparsable record, as listed in the source folder. -/
def badFile (name : String) : RawFile :=
  { name := name, content := none }

/-- Two-record folder used to witness the amended C7. -/
def sampleWitnessFiles : List SFile :=
  [{ name := "a.json", load := LoadResult.ok
      { fromField := some "s1@x.com", subject := some "one" } },
   { name := "b.json", load := LoadResult.ok
      { fromField := some "s2@x.com", subject := some "two" } }]

theorem pySplit_ne_nil (sep : Char) (l : List Char) : pySplit sep l ≠ [] := by
  induction l with
  | nil => simp [pySplit]
  | cons c cs ih =>
    by_cases h : c = sep
    · simp [pySplit, h]
    · simp only [pySplit, if_neg h]
      cases hps : pySplit sep cs with
      | nil => simp
      | cons p ps => simp

theorem pySplit_head (sep : Char) (l : List Char) :
    (pySplit sep l).head? = some (l.takeWhile (fun c => !(c == sep))) := by
  induction l with
  | nil => simp [pySplit]
  | cons c cs ih =>
    by_cases h : c = sep
    · simp [pySplit, h, List.takeWhile]
    · have hb : (c == sep) = false := by simp [h]
      simp only [pySplit, if_neg h, List.takeWhile, hb, Bool.not_false]
      cases hps : pySplit sep cs with
      | nil => exact absurd hps (pySplit_ne_nil sep cs)
      | cons p ps =>
        rw [hps] at ih
        simp only [List.head?, Option.some.injEq] at ih
        simp [List.head?, ih]

theorem pySplit_get_one (sep : Char) (l : List Char) (h : hasChar sep l = true) :
    (pySplit sep l).get? 1 =
      some (((l.dropWhile (fun c => !(c == sep))).tail).takeWhile (fun c => !(c == sep))) := by
  induction l with
  | nil => simp [hasChar] at h
  | cons c cs ih =>
    by_cases hc : c = sep
    · have hb : (c == sep) = true := by simp [hc]
      have h1 : pySplit sep (c :: cs) = [] :: pySplit sep cs := by simp [pySplit, hc]
      rw [h1]
      have h2 : (([] : List Char) :: pySplit sep cs).get? 1 = (pySplit sep cs).head? := by
        cases hps : pySplit sep cs with
        | nil => exact absurd hps (pySplit_ne_nil sep cs)
        | cons p ps => rfl
      rw [h2, pySplit_head]
      simp [List.dropWhile, hb]
    · have hb : (c == sep) = false := by simp [hc]
      have hcs : hasChar sep cs = true := by simpa [hasChar, hb] using h
      cases hps : pySplit sep cs with
      | nil => exact absurd hps (pySplit_ne_nil sep cs)
      | cons p ps =>
        have h1 : pySplit sep (c :: cs) = (c :: p) :: ps := by
          simp [pySplit, if_neg hc, hps]
        have hih := ih hcs
        rw [hps] at hih
        rw [h1]
        simp only [List.get?] at hih ⊢
        simpa [List.dropWhile, hb] using hih

theorem takeWhile_takeWhile_ (p q : Char → Bool) (l : List Char) :
    (l.takeWhile p).takeWhile q = l.takeWhile (fun c => p c && q c) := by
  induction l with
  | nil => rfl
  | cons c cs ih =>
    simp only [List.takeWhile]
    by_cases hp : p c
    · by_cases hq : q c
      · simp [hp, hq, List.takeWhile, ih]
      · simp [hp, hq, List.takeWhile]
    · simp [hp]

theorem pyAddr_eq (a0 : List Char) : pyAddr a0 = some (addrOf a0) := by
  unfold pyAddr addrOf
  by_cases h : hasChar '<' a0
  · rw [if_pos h, if_pos h, pySplit_get_one _ _ h]
    dsimp only
    rw [pySplit_head, takeWhile_takeWhile_]
  · rw [if_neg h, if_neg h]

theorem get_domainO_isSome (s : String) : (get_domainO s).isSome = true := by
  unfold get_domainO
  rw [pyAddr_eq]
  dsimp only
  by_cases h : hasChar '@' (addrOf s.data)
  · rw [if_pos h, pySplit_get_one _ _ h]
    rfl
  · rw [if_neg h]
    rfl

theorem get_domainO_of_at (s : String)
    (h : hasChar '@' (addrOf s.data) = true) :
    get_domainO s =
      some (String.mk ((((addrOf s.data).dropWhile (fun c => !(c == '@'))).tail.takeWhile
        (fun c => !(c == '@'))).map Char.toLower)) := by
  unfold get_domainO
  rw [pyAddr_eq]
  dsimp only
  rw [if_pos h, pySplit_get_one _ _ h]

theorem get_domainO_no_at (s : String)
    (h : hasChar '@' (addrOf s.data) = false) :
    get_domainO s = some (String.mk (((addrOf s.data).map Char.toLower).take 50)) := by
  unfold get_domainO
  rw [pyAddr_eq]
  dsimp only
  rw [if_neg (by simp [h])]

example : get_domainO "jane@example.com" = some "example.com" := by decide
example : get_domainO "Jane Doe <jane@example.com>" = some "example.com" := by decide
example : get_domainO "not-an-email" = some "not-an-email" := by decide
example : get_domainO "a@b@c" = some "b" := by decide
example : get_domainO "x<y" = some "y" := by decide
example : get_domainO "Foo <bar>" = some "bar" := by decide
example : get_domainO "" = some "" := by decide

theorem processFile_none (st : RunState) (f : RawFile) (h : f.content = none) :
    processFile st f = { st with inbox := st.inbox ++ [f] } := by
  unfold processFile
  rw [h]

theorem processFile_review (st : RunState) (f : RawFile) (e : Email)
    (hc : f.content = some e) (hr : needs_review e = true) :
    processFile st f =
      { st with
        needsReview := st.needsReview ++ [f],
        stats := { st.stats with review := st.stats.review + 1 } } := by
  unfold processFile
  rw [hc]
  dsimp only
  rw [if_pos hr]

theorem processFile_archive (st : RunState) (f : RawFile) (e : Email)
    (hc : f.content = some e) (hr : needs_review e = false)
    (ha : should_archive e = true) :
    processFile st f =
      { st with
        toArchive := st.toArchive ++ [f],
        stats := { st.stats with archive := st.stats.archive + 1 } } := by
  unfold processFile
  rw [hc]
  dsimp only
  rw [if_neg (by simp [hr]), if_pos ha]

theorem processFile_unres (st : RunState) (f : RawFile) (e : Email)
    (hc : f.content = some e) (hr : needs_review e = false)
    (ha : should_archive e = false) :
    processFile st f =
      { st with
        inbox := st.inbox ++ [f],
        stats := { st.stats with unknown := st.stats.unknown + 1 },
        senderCounts := fun d =>
          if d = get_domain (getFrom e "unknown") then st.senderCounts d + 1
          else st.senderCounts d } := by
  unfold processFile
  rw [hc]
  dsimp only
  rw [if_neg (by simp [hr]), if_neg (by simp [ha])]

/-- C1: the spec asserts every ARCHIVE_SENDERS entry is a lowercase
substring, so any sender containing an entry case-insensitively is
archived.  The shipped set contains the non-lowercase entry
"NoReply.ODD@dhl.com"; the sender is lowercased before the containment
test but the pattern is not, so a sender equal to that very entry
matches it case-insensitively yet is classified Unresolved, not
Archive. -/
theorem archive_entry_uppercase_never_archived :
    "NoReply.ODD@dhl.com" ∈ ARCHIVE_SENDERS ∧
    strIn (lowerStr "NoReply.ODD@dhl.com") (lowerStr "NoReply.ODD@dhl.com") = true ∧
    REVIEW_SENDERS = [] ∧
    should_archive { fromField := some "NoReply.ODD@dhl.com", subject := none } = false ∧
    classify { fromField := some "NoReply.ODD@dhl.com", subject := none } =
      Classification.Unresolved := by
  refine ⟨by decide, by decide, rfl, by decide, by decide⟩

/-- C2: when the sender text contains an entry of the review set and an
entry of the archive set, the classifier returns Review, because the
review-set containment test is performed before the archive-set test.
Stated for the parameterised classifier (`classify` is its instance at
the shipped sets, whose review set is empty). -/
theorem review_precedes_archive (R A : List String) (e : Email) (p q : String)
    (hp : p ∈ R) (hq : q ∈ A)
    (hcp : strIn p (lowerStr (getFrom e "")) = true)
    (hcq : strIn q (lowerStr (getFrom e "")) = true) :
    classifyWith R A e = Classification.Review := by
  have hm : matchesAny R (getFrom e "") = true := by
    unfold matchesAny
    exact List.any_eq_true.mpr ⟨p, hp, hcp⟩
  unfold classifyWith
  rw [if_pos hm]

/-- Witness for C2 at a concrete record containing entries of both
sets. -/
theorem review_precedes_archive_witness :
    classifyWith ["alpha"] ["beta"]
      { fromField := some "Alpha beta", subject := none } = Classification.Review :=
  review_precedes_archive ["alpha"] ["beta"]
    { fromField := some "Alpha beta", subject := none } "alpha" "beta"
    (by decide) (by decide) (by decide) (by decide)

/-- C3 counterexample: on "a@b@c" the address contains a second `@`;
the claim predicts the entire text after the first `@`, "b@c", but
`get_domain` takes `split("@")[1]`, the segment strictly between the
first and second `@`, giving "b". -/
theorem domain_second_at_counterexample :
    get_domainO "a@b@c" = some "b" ∧ get_domainO "a@b@c" ≠ some "b@c" := by
  exact ⟨by decide, by decide⟩

/-- C3 amended: when the derived address contains `@`, `get_domain`
returns the characters strictly between the first `@` and the next `@`
(to the end when there is no second `@`), lowercased. -/
theorem domain_between_first_and_second_at (s : String)
    (h : hasChar '@' (addrOf s.data) = true) :
    get_domainO s =
      some (String.mk ((((addrOf s.data).dropWhile (fun c => !(c == '@'))).tail.takeWhile
        (fun c => !(c == '@'))).map Char.toLower)) :=
  get_domainO_of_at s h

/-- Witness for the amended C3 at the spec's own example. -/
theorem domain_between_first_and_second_at_witness :
    get_domainO "jane@example.com" = some "example.com" :=
  domain_between_first_and_second_at "jane@example.com" (by decide)

/-- C4 counterexample: "x<y" contains `<` with no subsequent `>`; the
claim predicts the whole text is used as the address, yielding the
fallback "x<y", but the code rebinds the address to the part after the
first `<`, yielding "y". -/
theorem domain_fallback_counterexample :
    get_domainO "x<y" = some "y" ∧ get_domainO "x<y" ≠ some "x<y" := by
  exact ⟨by decide, by decide⟩

/-- C4 amended: whenever the text contains `<`, the address is rebound
to the characters after the first `<` up to the next `<` or `>` (even
when no `>` follows), and when the derived address contains no `@` the
function returns the first 50 characters of the derived address (not of
the original text), lowercased. -/
theorem domain_fallback_uses_derived_address (s : String)
    (h : hasChar '@' (addrOf s.data) = false) :
    get_domainO s = some (String.mk (((addrOf s.data).map Char.toLower).take 50)) :=
  get_domainO_no_at s h

/-- Witness for the amended C4 at the spec's own fallback example. -/
theorem domain_fallback_uses_derived_address_witness :
    get_domainO "not-an-email" = some "not-an-email" :=
  domain_fallback_uses_derived_address "not-an-email" (by decide)

/-- C8: `get_domain` is total — the fallible indexing steps always
succeed, so every input yields a string (no `IndexError` can be
raised), and the empty input yields the empty string. -/
theorem get_domain_total :
    (∀ s : String, (get_domainO s).isSome = true) ∧ get_domainO "" = some "" :=
  ⟨get_domainO_isSome, by decide⟩

theorem needs_review_false (e : Email) : needs_review e = false := rfl

theorem fold_no_review (files : List RawFile) (st : RunState) :
    (files.foldl processFile st).needsReview = st.needsReview ∧
    (files.foldl processFile st).stats.review = st.stats.review := by
  induction files generalizing st with
  | nil => exact ⟨rfl, rfl⟩
  | cons f fs ih =>
    have hstep : (processFile st f).needsReview = st.needsReview ∧
        (processFile st f).stats.review = st.stats.review := by
      rcases hc : f.content with _ | e
      · rw [processFile_none st f hc]
        exact ⟨rfl, rfl⟩
      · by_cases ha : should_archive e = true
        · rw [processFile_archive st f e hc (needs_review_false e) ha]
          exact ⟨rfl, rfl⟩
        · rw [processFile_unres st f e hc (needs_review_false e) (by simpa using ha)]
          exact ⟨rfl, rfl⟩
    have := ih (processFile st f)
    exact ⟨this.1.trans hstep.1, this.2.trans hstep.2⟩

/-- C9: the shipped review set is empty, so `needs_review` is
identically false, no run ever moves a record to the review folder, and
the review counter ends every run at zero. -/
theorem review_set_empty_no_review (e : Email) (files : List RawFile) :
    REVIEW_SENDERS = [] ∧
    needs_review e = false ∧
    (runTriage files).needsReview = [] ∧
    (runTriage files).stats.review = 0 :=
  ⟨rfl, needs_review_false e,
    (fold_no_review files initState).1, (fold_no_review files initState).2⟩

theorem fold_inbox_residual (files : List RawFile) (st : RunState)
    (h : ∀ f ∈ st.inbox, residual f) :
    ∀ f ∈ (files.foldl processFile st).inbox, residual f := by
  induction files generalizing st with
  | nil => exact h
  | cons f fs ih =>
    apply ih
    intro g hg
    rcases hc : f.content with _ | e
    · rw [processFile_none st f hc] at hg
      rcases List.mem_append.mp hg with h1 | h2
      · exact h g h1
      · have hgf : g = f := by simpa using h2
        subst hgf
        intro e2 he2
        rw [hc] at he2
        cases he2
    · by_cases hr : needs_review e = true
      · rw [processFile_review st f e hc hr] at hg
        exact h g hg
      · by_cases ha : should_archive e = true
        · rw [processFile_archive st f e hc (by simpa using hr) ha] at hg
          exact h g hg
        · rw [processFile_unres st f e hc (by simpa using hr) (by simpa using ha)] at hg
          rcases List.mem_append.mp hg with h1 | h2
          · exact h g h1
          · have hgf : g = f := by simpa using h2
            subst hgf
            intro e2 he2
            rw [hc] at he2
            injection he2 with he3
            subst he3
            exact ⟨by simpa using hr, by simpa using ha⟩

theorem fold_residual_static (files : List RawFile) (st : RunState)
    (h : ∀ f ∈ files, residual f) :
    (files.foldl processFile st).toArchive = st.toArchive ∧
    (files.foldl processFile st).needsReview = st.needsReview ∧
    (files.foldl processFile st).stats.archive = st.stats.archive ∧
    (files.foldl processFile st).stats.review = st.stats.review ∧
    (files.foldl processFile st).inbox = st.inbox ++ files := by
  induction files generalizing st with
  | nil => exact ⟨rfl, rfl, rfl, rfl, by simp⟩
  | cons f fs ih =>
    have hf := h f (List.mem_cons_self f fs)
    have hrest : ∀ g ∈ fs, residual g := fun g hg => h g (List.mem_cons_of_mem f hg)
    rcases hc : f.content with _ | e
    · rw [List.foldl_cons, processFile_none st f hc]
      have hthis := ih { st with inbox := st.inbox ++ [f] } hrest
      exact ⟨hthis.1, hthis.2.1, hthis.2.2.1, hthis.2.2.2.1,
        by rw [hthis.2.2.2.2]; simp⟩
    · obtain ⟨hr, ha⟩ := hf e hc
      rw [List.foldl_cons, processFile_unres st f e hc hr ha]
      have hthis := ih
        { st with
          inbox := st.inbox ++ [f],
          stats := { st.stats with unknown := st.stats.unknown + 1 },
          senderCounts := fun d =>
            if d = get_domain (getFrom e "unknown") then st.senderCounts d + 1
            else st.senderCounts d } hrest
      exact ⟨hthis.1, hthis.2.1, hthis.2.2.1, hthis.2.2.2.1,
        by rw [hthis.2.2.2.2]; simp⟩

/-- C6: a second triage run over the records the first run left in the
source folder moves nothing — its archive and review folders stay
empty, its archive and review counters stay zero, and it leaves the
folder contents unchanged — because every record the first run left
behind is unparsable or classifies as Unresolved again. -/
theorem triage_idempotent (files : List RawFile) :
    (runTriage ((runTriage files).inbox)).toArchive = [] ∧
    (runTriage ((runTriage files).inbox)).needsReview = [] ∧
    (runTriage ((runTriage files).inbox)).stats.archive = 0 ∧
    (runTriage ((runTriage files).inbox)).stats.review = 0 ∧
    (runTriage ((runTriage files).inbox)).inbox = (runTriage files).inbox := by
  have hres : ∀ f ∈ (runTriage files).inbox, residual f := by
    apply fold_inbox_residual
    intro f hf
    simp [initState] at hf
  have hmain := fold_residual_static ((runTriage files).inbox) initState hres
  exact ⟨hmain.1, hmain.2.1, hmain.2.2.1, hmain.2.2.2.1, by simpa using hmain.2.2.2.2⟩

theorem processFile_obs (s t : RunState) (f : RawFile)
    (h1 : s.toArchive = t.toArchive) (h2 : s.needsReview = t.needsReview)
    (h3 : s.stats = t.stats) (h4 : s.senderCounts = t.senderCounts) :
    (processFile s f).toArchive = (processFile t f).toArchive ∧
    (processFile s f).needsReview = (processFile t f).needsReview ∧
    (processFile s f).stats = (processFile t f).stats ∧
    (processFile s f).senderCounts = (processFile t f).senderCounts := by
  rcases hc : f.content with _ | e
  · rw [processFile_none s f hc, processFile_none t f hc]
    exact ⟨h1, h2, h3, h4⟩
  · by_cases hr : needs_review e = true
    · rw [processFile_review s f e hc hr, processFile_review t f e hc hr]
      exact ⟨h1, by rw [h2], by rw [h3], h4⟩
    · by_cases ha : should_archive e = true
      · rw [processFile_archive s f e hc (by simpa using hr) ha,
          processFile_archive t f e hc (by simpa using hr) ha]
        exact ⟨by rw [h1], h2, by rw [h3], h4⟩
      · rw [processFile_unres s f e hc (by simpa using hr) (by simpa using ha),
          processFile_unres t f e hc (by simpa using hr) (by simpa using ha)]
        exact ⟨h1, h2, by rw [h3], by rw [h4]⟩

theorem fold_obs (files : List RawFile) (s t : RunState)
    (h1 : s.toArchive = t.toArchive) (h2 : s.needsReview = t.needsReview)
    (h3 : s.stats = t.stats) (h4 : s.senderCounts = t.senderCounts) :
    (files.foldl processFile s).toArchive = (files.foldl processFile t).toArchive ∧
    (files.foldl processFile s).needsReview = (files.foldl processFile t).needsReview ∧
    (files.foldl processFile s).stats = (files.foldl processFile t).stats ∧
    (files.foldl processFile s).senderCounts = (files.foldl processFile t).senderCounts := by
  induction files generalizing s t with
  | nil => exact ⟨h1, h2, h3, h4⟩
  | cons f fs ih =>
    rw [List.foldl_cons, List.foldl_cons]
    have hstep := processFile_obs s t f h1 h2 h3 h4
    exact ih (processFile s f) (processFile t f) hstep.1 hstep.2.1 hstep.2.2.1 hstep.2.2.2

theorem fold_inbox_mono (files : List RawFile) (st : RunState) (f : RawFile)
    (h : f ∈ st.inbox) : f ∈ (files.foldl processFile st).inbox := by
  induction files generalizing st with
  | nil => exact h
  | cons g gs ih =>
    rw [List.foldl_cons]
    apply ih
    rcases hc : g.content with _ | e
    · rw [processFile_none st g hc]
      exact List.mem_append_left _ h
    · by_cases hr : needs_review e = true
      · rw [processFile_review st g e hc hr]
        exact h
      · by_cases ha : should_archive e = true
        · rw [processFile_archive st g e hc (by simpa using hr) ha]
          exact h
        · rw [processFile_unres st g e hc (by simpa using hr) (by simpa using ha)]
          exact List.mem_append_left _ h

/-- C5: a record whose content fails to parse is skipped silently: the
run over a listing containing it produces the same stats, the same
destination folders and the same domain frequency table as the run over
the listing without it (so the record is counted nowhere and the
remaining records are still processed), and the record itself stays in
the source folder. -/
theorem parse_failure_skipped_silently (pre post : List RawFile) (name : String) :
    (runTriage (pre ++ badFile name :: post)).stats = (runTriage (pre ++ post)).stats ∧
    (runTriage (pre ++ badFile name :: post)).toArchive =
      (runTriage (pre ++ post)).toArchive ∧
    (runTriage (pre ++ badFile name :: post)).needsReview =
      (runTriage (pre ++ post)).needsReview ∧
    (runTriage (pre ++ badFile name :: post)).senderCounts =
      (runTriage (pre ++ post)).senderCounts ∧
    badFile name ∈ (runTriage (pre ++ badFile name :: post)).inbox := by
  have hsplit : runTriage (pre ++ badFile name :: post) =
      post.foldl processFile (processFile (pre.foldl processFile initState) (badFile name)) := by
    unfold runTriage
    rw [List.foldl_append, List.foldl_cons]
  have hsplit2 : runTriage (pre ++ post) =
      post.foldl processFile (pre.foldl processFile initState) := by
    unfold runTriage
    rw [List.foldl_append]
  have hskip : processFile (pre.foldl processFile initState) (badFile name) =
      { pre.foldl processFile initState with
        inbox := (pre.foldl processFile initState).inbox ++ [badFile name] } :=
    processFile_none _ _ rfl
  have hobs := fold_obs post
    (processFile (pre.foldl processFile initState) (badFile name))
    (pre.foldl processFile initState)
    (by rw [hskip]) (by rw [hskip]) (by rw [hskip]) (by rw [hskip])
  refine ⟨?_, ?_, ?_, ?_, ?_⟩
  · rw [hsplit, hsplit2]; exact hobs.2.2.1
  · rw [hsplit, hsplit2]; exact hobs.1
  · rw [hsplit, hsplit2]; exact hobs.2.1
  · rw [hsplit, hsplit2]; exact hobs.2.2.2
  · rw [hsplit]
    apply fold_inbox_mono
    rw [hskip]
    exact List.mem_append_right _ (by simp)

/-- C7 counterexample: with `count = 0` and one matching record, the
Python slice `matches[-0:]` is the whole list, so the sampler returns
one record although the claim allows at most `count = 0` and `count` is
smaller than the number of matches. -/
theorem sample_count_zero_counterexample :
    0 < (sampleMatches
        [{ name := "a.json", load := LoadResult.ok
            { fromField := some "x@y.com", subject := some "hi" } }] none).length ∧
    (sample_emails
        [{ name := "a.json", load := LoadResult.ok
            { fromField := some "x@y.com", subject := some "hi" } }] 0 none).length = 1 := by
  exact ⟨by decide, by decide⟩

/-- C7 amended: for every positive `count` the sampler returns at most
`count` records, and when `count` is smaller than the number of matches
it returns exactly the last `count` entries of the match list in its
original order. -/
theorem sample_last_count_matches (files : List SFile) (count : Nat)
    (search : Option String) (hpos : 0 < count) :
    (sample_emails files count search).length ≤ count ∧
    (count < (sampleMatches files search).length →
      sample_emails files count search =
        (sampleMatches files search).drop
          ((sampleMatches files search).length - count)) := by
  unfold sample_emails
  dsimp only
  by_cases h : count < (sampleMatches files search).length
  · rw [if_pos h]
    unfold pyTailSlice
    rw [if_neg (Nat.pos_iff_ne_zero.mp hpos)]
    constructor
    · rw [List.length_drop]
      omega
    · intro _
      rfl
  · rw [if_neg h]
    exact ⟨by omega, fun hcontra => absurd hcontra h⟩

/-- Witness for the amended C7 at a concrete folder with two matches
and `count = 1`. -/
theorem sample_last_count_matches_witness :
    (sample_emails sampleWitnessFiles 1 none).length ≤ 1 ∧
    (1 < (sampleMatches sampleWitnessFiles none).length →
      sample_emails sampleWitnessFiles 1 none =
        (sampleMatches sampleWitnessFiles none).drop
          ((sampleMatches sampleWitnessFiles none).length - 1)) :=
  sample_last_count_matches sampleWitnessFiles 1 none (by decide)

/-- C10: a file that fails to load is treated asymmetrically by the
sampler: with no search active it contributes an entry whose sender is
"error" and whose subject is the exception message; with a (non-empty)
search string it is silently dropped from the match list. -/
theorem sample_error_handling_asymmetric (pre post : List SFile)
    (name msg s : String) (hs : s ≠ "") :
    sampleMatches (pre ++ { name := name, load := LoadResult.err msg } :: post) none =
      sampleMatches pre none ++ (name, "error", msg) :: sampleMatches post none ∧
    sampleMatches (pre ++ { name := name, load := LoadResult.err msg } :: post) (some s) =
      sampleMatches pre (some s) ++ sampleMatches post (some s) := by
  have hb : (s == "") = false := by
    simp [hs]
  constructor
  · unfold sampleMatches
    rw [List.filterMap_append]
    congr 1
  · have hdrop : matchEntry (some s) { name := name, load := LoadResult.err msg } =
        none := by
      unfold matchEntry searchActive
      dsimp only
      rw [hb]
      rfl
    unfold sampleMatches
    rw [List.filterMap_append]
    congr 1
    simp [List.filterMap_cons, hdrop]

/-- Witness for C10 at a concrete failing file with and without a
search string. -/
theorem sample_error_handling_asymmetric_witness :
    sampleMatches [{ name := "e.json", load := LoadResult.err "boom" }] none =
      [("e.json", "error", "boom")] ∧
    sampleMatches [{ name := "e.json", load := LoadResult.err "boom" }] (some "x") = [] :=
  sample_error_handling_asymmetric [] [] "e.json" "boom" "x" (by decide)

end Triage
